import Mathlib

/-!
Verification of the event-delegation mixin (EditorObservable.ts) and the
mobile image-picker widget (ImagePicker.js) of the tinymce repository,
via a shallow embedding of both modules.

DOM nodes are modelled as paths from the document root (a node is the list
of child indices leading to it), so that the ancestor relation is the
strict-prefix relation on paths.  Editors, the module-level shared
customEventRootDelegates registry, and the set of natively installed
listeners form an explicit world state; JS mutation becomes explicit state
passing.
-/

namespace TinySpec

/-- Nodes of the DOM are identified by their path from the root. -/
abbrev Node := List Nat

/-- Tests whether the first path is a strict ancestor of the second.
Modelled from the spec: DOMUtils.isChildOf is not part of this excerpt;
the spec describes the check as the body being the event target or an
ancestor of it (containment), which on path-identified nodes is the
strict-prefix relation. -/
def isAncestorOf : Node → Node → Bool
  | [], [] => false
  | [], _ :: _ => true
  | _ :: _, [] => false
  | a :: as, b :: bs => a == b && isAncestorOf as bs

/-- DOM.isChildOf target body: target lies strictly below body. -/
def isChildOf (target body : Node) : Bool := isAncestorOf body target

/-- Whether a character list starts with the given pattern. -/
def startsWithL : List Char → List Char → Bool
  | _, [] => true
  | [], _ :: _ => false
  | a :: as, b :: bs => a == b && startsWithL as bs

/-- Whether a character list contains the given pattern as a contiguous run. -/
def containsSub : List Char → List Char → Bool
  | [], pat => startsWithL [] pat
  | a :: as, pat => startsWithL (a :: as) pat || containsSub as pat

/-- The test of the regular expression
/^mouse|touch|click|contextmenu|drop|dragover|dragend/ used by
getEventTarget: only the mouse alternative is anchored at the start,
every other alternative may occur anywhere in the event name. -/
def isMouseLike (n : String) : Bool :=
  startsWithL n.data "mouse".data ||
  containsSub n.data "touch".data ||
  containsSub n.data "click".data ||
  containsSub n.data "contextmenu".data ||
  containsSub n.data "drop".data ||
  containsSub n.data "dragover".data ||
  containsSub n.data "dragend".data

/-- The per-editor state visible to EditorObservable.  delegates and
pendingNativeEvents are Option so that an absent JS property (undefined)
is distinguished from an empty collection. -/
structure Editor where
  id : Nat
  hidden : Bool
  readOnly : Bool
  removed : Bool
  inline : Bool
  initialized : Bool
  body : Node
  doc : Node
  docElement : Node
  win : Node
  container : Node
  settingsEventRoot : Option String
  eventRootCache : Option Node
  delegates : Option (List String)
  pendingNativeEvents : Option (List String)
deriving DecidableEq

/-- The event-name keys present in the delegates map of an editor. -/
def delegateNames (ed : Editor) : List String := ed.delegates.getD []

/-- A native event as seen by a delegate: only its target matters here. -/
structure Event where
  target : Node
deriving DecidableEq

/-- The function value installed as a native listener: either the shared
custom-event-root delegate for an event name, or the private delegate of
one editor. -/
inductive Delegate where
  | sharedRoot (eventName : String)
  | privateEd (edId : Nat) (eventName : String)
deriving DecidableEq

/-- One natively installed listener: DOM.bind(target, eventName, delegate). -/
structure Listener where
  target : Node
  eventName : String
  delegate : Delegate
deriving DecidableEq

/-- The world state of the module: the editorManager editor list (in
registration order), the module-level customEventRootDelegates registry,
the natively installed listeners, whether the removeEditor cleanup handler
has been installed, and the DOM.select resolver for selector strings. -/
structure World where
  editors : List Editor
  customEventRootDelegates : Option (List String)
  nativeListeners : List Listener
  removeHandlerInstalled : Bool
  selectFirst : String → Node

/-- editorManager lookup of an editor by id (first match). -/
def findEditor (w : World) (i : Nat) : Option Editor :=
  w.editors.find? (fun ed => ed.id == i)

/-- Replaces the first editor carrying the id of the given editor. -/
def replaceFirst : List Editor → Editor → List Editor
  | [], _ => []
  | e :: es, ed => if e.id == ed.id then ed :: es else e :: replaceFirst es ed

/-- Writes back a mutated editor into the world. -/
def updateEditor (w : World) (ed : Editor) : World :=
  { w with editors := replaceFirst w.editors ed }

/-- getEventTarget of EditorObservable.ts: document for selectionchange,
documentElement for mouse-like events outside inline mode, the configured
event root (resolved once and cached on the editor) when set, and the body
otherwise.  Returns the target together with the possibly mutated editor. -/
def getEventTarget (sf : String → Node) (ed : Editor) (eventName : String) :
    Node × Editor :=
  if eventName = "selectionchange" then
    (ed.doc, ed)
  else if !ed.inline && isMouseLike eventName then
    (ed.docElement, ed)
  else
    match ed.settingsEventRoot with
    | some sel =>
        match ed.eventRootCache with
        | some r => (r, ed)
        | none =>
            let r := sf sel
            (r, { ed with eventRootCache := some r })
    | none => (ed.body, ed)

/-- isListening of EditorObservable.ts. -/
def isListening (ed : Editor) : Bool := !ed.hidden && !ed.readOnly

/-- The observable outcomes of routing one native event. -/
inductive DispatchAction where
  | fired (edId : Nat) (eventName : String) (e : Event)
  | preventReadOnly (edId : Nat) (e : Event)
deriving DecidableEq

/-- fireEvent of EditorObservable.ts: dispatch normally when listening,
invoke preventReadOnlyEvents when read-only, do nothing otherwise. -/
def fireEvent (ed : Editor) (eventName : String) (e : Event) :
    List DispatchAction :=
  if isListening ed then
    [DispatchAction.fired ed.id eventName e]
  else if ed.readOnly then
    [DispatchAction.preventReadOnly ed.id e]
  else
    []

/-- The while loop of the shared custom-root delegate: editors are walked
from the last registered to the first, and each editor whose body is the
event target or an ancestor of it receives fireEvent.  The argument list
is already reversed. -/
def walkEditors : List Editor → String → Event → List DispatchAction
  | [], _, _ => []
  | ed :: rest, n, e =>
      (if ed.body == e.target || isChildOf e.target ed.body then
        fireEvent ed n e
      else
        []) ++ walkEditors rest n e

/-- Running the shared custom-event-root delegate for an event name on a
native event: editorManager.get() is scanned in reverse order. -/
def runSharedDelegate (w : World) (n : String) (e : Event) :
    List DispatchAction :=
  walkEditors w.editors.reverse n e

/-- The delegates-map initialization at the top of bindEventDelegate: an
absent delegates property is replaced by an empty map. -/
def edInit (ed0 : Editor) : Editor :=
  if ed0.delegates.isNone then { ed0 with delegates := some [] } else ed0

/-- bindEventDelegate of EditorObservable.ts, as a world transformer on the
editor identified by id. -/
def bindEventDelegate (w : World) (i : Nat) (n : String) : World :=
  match findEditor w i with
  | none => w
  | some ed0 =>
    let ed1 := edInit ed0
    if (delegateNames ed1).contains n || ed1.removed then
      updateEditor w ed1
    else
      let p := getEventTarget w.selectFirst ed1 n
      match ed1.settingsEventRoot with
      | some _ =>
          let w1 := updateEditor w p.2
          let w2 :=
            if w1.customEventRootDelegates.isNone then
              { w1 with customEventRootDelegates := some [],
                        removeHandlerInstalled := true }
            else w1
          let crd := w2.customEventRootDelegates.getD []
          if crd.contains n then w2
          else
            { w2 with
                customEventRootDelegates := some (crd ++ [n]),
                nativeListeners :=
                  w2.nativeListeners ++ [⟨p.1, n, Delegate.sharedRoot n⟩] }
      | none =>
          let ed3 := { p.2 with delegates := some (delegateNames p.2 ++ [n]) }
          let w1 := updateEditor w ed3
          { w1 with
              nativeListeners :=
                w1.nativeListeners ++ [⟨p.1, n, Delegate.privateEd ed3.id n⟩] }

/-- toggleNativeEvent of EditorObservable.ts: focus and blur are exempt;
with state true the delegate is bound immediately when initialized and
queued on pendingNativeEvents otherwise; with state false and an
initialized editor the private delegate is unbound and dropped. -/
def toggleNativeEvent (w : World) (i : Nat) (name : String) (state : Bool) :
    World :=
  match findEditor w i with
  | none => w
  | some ed =>
    if name = "focus" || name = "blur" then w
    else if state then
      if ed.initialized then bindEventDelegate w i name
      else
        updateEditor w
          { ed with
              pendingNativeEvents :=
                some (ed.pendingNativeEvents.getD [] ++ [name]) }
    else if ed.initialized then
      let p := getEventTarget w.selectFirst ed name
      let ls :=
        w.nativeListeners.filter (fun l =>
          !(l.target == p.1 && l.eventName == name &&
            l.delegate == Delegate.privateEd ed.id name))
      updateEditor { w with nativeListeners := ls }
        { p.2 with
            delegates := some ((delegateNames p.2).erase name) }
    else w

/-- bindPendingEventDelegates of EditorObservable.ts: binds every queued
pending event name in order. -/
def bindPendingEventDelegates (w : World) (i : Nat) : World :=
  match findEditor w i with
  | none => w
  | some ed => (ed.pendingNativeEvents.getD []).foldl
      (fun acc n => bindEventDelegate acc i n) w

/-- dom.unbind(target, name, handler): removes the matching listeners. -/
def removeListeners (ls : List Listener) (t : Node) (n : String)
    (d : Delegate) : List Listener :=
  ls.filter (fun l => !(l.target == t && l.eventName == n && l.delegate == d))

/-- dom.unbind(target): removes every listener installed on the node. -/
def removeAllOn (ls : List Listener) (t : Node) : List Listener :=
  ls.filter (fun l => !(l.target == t))

/-- The Obj.each loop of unbindAllNativeEvents: for every delegates entry,
dom.unbind(getEventTarget(self, name), name, value).  The editor is
threaded because getEventTarget may cache the event root. -/
def unbindLoop (sf : String → Node) :
    List String → Editor → List Listener → Editor × List Listener
  | [], ed, ls => (ed, ls)
  | n :: rest, ed, ls =>
      let p := getEventTarget sf ed n
      unbindLoop sf rest p.2
        (removeListeners ls p.1 n (Delegate.privateEd ed.id n))

/-- unbindAllNativeEvents of EditorObservable.ts: unbinds every private
delegate recorded on the editor and deletes the delegates map, then
unbinds everything on the window and document outside inline mode, and
everything on the body and the container. -/
def unbindAllNativeEvents (w : World) (i : Nat) : World :=
  match findEditor w i with
  | none => w
  | some ed =>
    let q :=
      match ed.delegates with
      | some names =>
          let p := unbindLoop w.selectFirst names ed w.nativeListeners
          ({ p.1 with delegates := none }, p.2)
      | none => (ed, w.nativeListeners)
    let ls2 :=
      if !ed.inline then removeAllOn (removeAllOn q.2 ed.win) ed.doc else q.2
    let ls3 := removeAllOn (removeAllOn ls2 ed.body) ed.container
    updateEditor { w with nativeListeners := ls3 } q.1

/-- Running one installed delegate function on a native event. -/
def runDelegate (w : World) (d : Delegate) (e : Event) :
    List DispatchAction :=
  match d with
  | Delegate.sharedRoot n => runSharedDelegate w n e
  | Delegate.privateEd i n =>
      match findEditor w i with
      | some ed => fireEvent ed n e
      | none => []

/-- The browser firing a native event of the given name on the node the
listeners were bound to: every installed listener for that (node, name)
pair runs on the event. -/
def fireNative (w : World) (t : Node) (n : String) (e : Event) :
    List DispatchAction :=
  (w.nativeListeners.filter (fun l => l.target == t && l.eventName == n)).foldr
    (fun l acc => runDelegate w l.delegate e ++ acc) []

/-! The image-picker widget (ImagePicker.js).  The blob cache, the id
generator, the undo manager and content insertion are external
collaborators; their use is recorded as an effect trace on an explicit
editor-session state. -/

/-- An opaque binary payload. -/
abbrev Blob := Nat

/-- A file handle from a file list. -/
abbrev File := Nat

/-- An identifier produced by Id.generate: an opaque fresh token carrying
the requested name part; freshness is modelled by a per-session counter. -/
structure GenId where
  pre : String
  seq : Nat
deriving DecidableEq

/-- Id.generate applied to the session counter. -/
def idGenerate (pre : String) (c : Nat) : GenId := ⟨pre, c⟩

/-- A blob-cache entry: generated id, raw blob, base64 encoding. -/
structure BlobInfo where
  id : GenId
  blob : Blob
  base64 : String
deriving DecidableEq

/-- The addressable URI of a cache entry, as resolved by the cache
collaborator from the entry. -/
structure BlobUriV where
  entryId : GenId
deriving DecidableEq

/-- info.blobUri() of the cache entry. -/
def BlobInfo.blobUri (info : BlobInfo) : BlobUriV := ⟨info.id⟩

/-- The output of editor.dom.createHTML(tag, attrs) with a blob URI as the
src attribute value. -/
structure Html where
  tag : String
  srcAttr : BlobUriV
deriving DecidableEq

/-- The observable collaborator calls made while inserting an image. -/
inductive PickAction where
  | cacheCreate (info : BlobInfo)
  | cacheAdd (info : BlobInfo)
  | insertContent (h : Html)
  | transactBegin
  | transactEnd
deriving DecidableEq

/-- The editor-session state seen by addImage: the id-generator counter
and the trace of collaborator calls made so far. -/
structure MState where
  nextId : Nat
  trace : List PickAction
deriving DecidableEq

/-- Appends one collaborator call to the trace. -/
def emit (s : MState) (a : PickAction) : MState :=
  { s with trace := s.trace ++ [a] }

/-- undoManager.transact(f): one undo transaction wrapping the calls made
by f. -/
def transact (s : MState) (f : MState → MState) : MState :=
  emit (f (emit s PickAction.transactBegin)) PickAction.transactEnd

/-- addImage of ImagePicker.js, after the asynchronous
BlobConversions.blobToBase64 conversion has resolved with base64: inside
one undo transaction, create a cache entry under a fresh id, add it to the
cache and insert an img element whose src is the entry blob URI. -/
def addImage (s : MState) (blob : Blob) (base64 : String) : MState :=
  transact s (fun s1 =>
    let info : BlobInfo := ⟨idGenerate "mceu" s1.nextId, blob, base64⟩
    let s2 := { s1 with nextId := s1.nextId + 1 }
    let s3 := emit (emit s2 (PickAction.cacheCreate info))
      (PickAction.cacheAdd info)
    emit s3 (PickAction.insertContent ⟨"img", info.blobUri⟩))

/-- A JavaScript runtime failure. -/
inductive JsError where
  | typeError
deriving DecidableEq

/-- The raw native event inspected by extractBlob: target.files is absent
or a (possibly empty) file list, and dataTransfer is absent or carries a
file list. -/
structure RawEvent where
  targetFiles : Option (List File)
  dataTransfer : Option (List File)
deriving DecidableEq

/-- extractBlob of ImagePicker.js: event.raw().target.files ||
event.raw().dataTransfer.files, then Option.from(files[0]).  A present
file list is truthy even when empty, so dataTransfer is consulted only
when target.files is absent; reading .files off an absent dataTransfer
is a TypeError. -/
def extractBlob (e : RawEvent) : Except JsError (Option File) :=
  match e.targetFiles with
  | some fs => Except.ok fs.head?
  | none =>
      match e.dataTransfer with
      | some fs => Except.ok fs.head?
      | none => Except.error JsError.typeError

/-! Theorems. -/

/-- Claim C6: for every editor-session state and blob, a completed image
insertion performs exactly one cache-entry creation under the freshly
generated id, exactly one add of that entry, and exactly one insertion of
an img element whose src is the blob URI of that entry, and these three
calls are wrapped in exactly one undo transaction; the generator counter
advances so the id differs from every id generated at another counter
value. -/
theorem addImage_single_transaction (s : MState) (blob : Blob)
    (b64 : String) :
    (addImage s blob b64).trace =
      s.trace ++
        [PickAction.transactBegin,
         PickAction.cacheCreate ⟨idGenerate "mceu" s.nextId, blob, b64⟩,
         PickAction.cacheAdd ⟨idGenerate "mceu" s.nextId, blob, b64⟩,
         PickAction.insertContent
           ⟨"img", BlobInfo.blobUri ⟨idGenerate "mceu" s.nextId, blob, b64⟩⟩,
         PickAction.transactEnd] ∧
    (addImage s blob b64).nextId = s.nextId + 1 ∧
    (∀ c : Nat, c ≠ s.nextId →
      idGenerate "mceu" c ≠ idGenerate "mceu" s.nextId) := by
  refine ⟨?_, ?_, ?_⟩
  · simp [addImage, transact, emit, List.append_assoc]
  · simp [addImage, transact, emit]
  · intro c hc h
    exact hc (congrArg GenId.seq h)

/-- Witness for C6 at a concrete state and blob. -/
theorem addImage_single_transaction_witness :
    (addImage ⟨0, []⟩ 5 "enc").trace =
      [PickAction.transactBegin,
       PickAction.cacheCreate ⟨idGenerate "mceu" 0, 5, "enc"⟩,
       PickAction.cacheAdd ⟨idGenerate "mceu" 0, 5, "enc"⟩,
       PickAction.insertContent
         ⟨"img", BlobInfo.blobUri ⟨idGenerate "mceu" 0, 5, "enc"⟩⟩,
       PickAction.transactEnd] ∧
    idGenerate "mceu" 1 ≠ idGenerate "mceu" 0 :=
  ⟨(addImage_single_transaction ⟨0, []⟩ 5 "enc").1,
   (addImage_single_transaction ⟨0, []⟩ 5 "enc").2.2 1 (by decide)⟩

/-- Claim C7: for a change event whose target carries a file list (and no
drag payload is consulted), extractBlob returns the first file of the list
when it is non-empty and none when it is empty; the first entry is read
from the target file list, or from the drag-payload file list when the
target carries none. -/
theorem extractBlob_first_file (e : RawEvent) :
    (∀ fs : List File, e.targetFiles = some fs →
        extractBlob e = Except.ok fs.head? ∧
        (fs = [] → extractBlob e = Except.ok none) ∧
        (∀ f rest, fs = f :: rest → extractBlob e = Except.ok (some f))) ∧
    (e.targetFiles = none → ∀ fs : List File, e.dataTransfer = some fs →
        extractBlob e = Except.ok fs.head?) := by
  constructor
  · intro fs hfs
    refine ⟨?_, ?_, ?_⟩
    · simp [extractBlob, hfs]
    · intro h
      subst h
      simp [extractBlob, hfs]
    · intro f rest h
      subst h
      simp [extractBlob, hfs]
  · intro h fs hdt
    simp [extractBlob, h, hdt]

/-- Witness for C7: a one-file selection yields that file, an empty
selection yields none, and the drag payload is used when no target list
exists. -/
theorem extractBlob_first_file_witness :
    extractBlob ⟨some [7], none⟩ = Except.ok (some 7) ∧
    extractBlob ⟨some [], none⟩ = Except.ok none ∧
    extractBlob ⟨none, some [3]⟩ = Except.ok (List.head? [3]) :=
  ⟨((extractBlob_first_file ⟨some [7], none⟩).1 [7] rfl).2.2 7 [] rfl,
   ((extractBlob_first_file ⟨some [], none⟩).1 [] rfl).2.1 rfl,
   (extractBlob_first_file ⟨none, some [3]⟩).2 rfl [3] rfl⟩

/-- Claim C10: whenever the raw target carries a file list, even an empty
one, the result is read from it and is independent of the drag payload,
which is never consulted; and when the target carries no file list and
there is no dataTransfer object, extractBlob does not return none but
fails with a TypeError (reading .files off a missing dataTransfer). -/
theorem extractBlob_partial_interface (e : RawEvent) :
    (∀ fs : List File, e.targetFiles = some fs →
        ∀ dt dt' : Option (List File),
          extractBlob { e with dataTransfer := dt } =
            extractBlob { e with dataTransfer := dt' } ∧
          extractBlob { e with dataTransfer := dt } = Except.ok fs.head?) ∧
    (e.targetFiles = none → e.dataTransfer = none →
        extractBlob e = Except.error JsError.typeError) := by
  constructor
  · intro fs hfs dt dt'
    constructor <;> simp [extractBlob, hfs]
  · intro h1 h2
    simp [extractBlob, h1, h2]

/-- Witness for C10: with an empty target file list the drag payload is
ignored, and with neither list present the extraction fails. -/
theorem extractBlob_partial_interface_witness :
    extractBlob ⟨some [], some [3]⟩ = extractBlob ⟨some [], none⟩ ∧
    extractBlob ⟨none, none⟩ = Except.error JsError.typeError :=
  ⟨((extractBlob_partial_interface ⟨some [], some [9]⟩).1 [] rfl
      (some [3]) none).1,
   (extractBlob_partial_interface ⟨none, none⟩).2 rfl rfl⟩

/-- Claim C8: toggling a native listener named focus or blur is exempt and
leaves the whole world state unchanged, for every editor, every delegate
and pending state, and both toggle directions. -/
theorem toggleNativeEvent_focus_blur (w : World) (i : Nat) (state : Bool) :
    toggleNativeEvent w i "focus" state = w ∧
    toggleNativeEvent w i "blur" state = w := by
  constructor <;>
    · unfold toggleNativeEvent
      cases h : findEditor w i <;> simp

/-- Claim C4: a hidden or read-only editor receives no normal dispatch
from fireEvent; a read-only editor is redirected to the
preventReadOnlyEvents suppression hook; a visible non-read-only editor
receives the event normally. -/
theorem fireEvent_gating (ed : Editor) (n : String) (e : Event) :
    ((ed.hidden = true ∨ ed.readOnly = true) →
        ∀ a ∈ fireEvent ed n e, ∀ j m e2, a ≠ DispatchAction.fired j m e2) ∧
    (ed.readOnly = true →
        fireEvent ed n e = [DispatchAction.preventReadOnly ed.id e]) ∧
    (ed.hidden = false → ed.readOnly = false →
        fireEvent ed n e = [DispatchAction.fired ed.id n e]) := by
  refine ⟨?_, ?_, ?_⟩
  · intro h a ha j m e2
    cases hh : ed.hidden <;> cases hr : ed.readOnly <;>
      rcases h with h | h <;> simp_all [fireEvent, isListening]
  · intro hr
    cases hh : ed.hidden <;> simp [fireEvent, isListening, hh, hr]
  · intro hh hr
    simp [fireEvent, isListening, hh, hr]

/-- A sample DOM.select resolver used by concrete scenarios. -/
def sfDemo : String → Node := fun _ => [0]

/-- A sample editor used by concrete scenarios. -/
def edBase : Editor :=
  { id := 1, hidden := false, readOnly := false, removed := false,
    inline := false, initialized := true, body := [0, 1], doc := [0],
    docElement := [0, 0], win := [5], container := [6],
    settingsEventRoot := none, eventRootCache := none,
    delegates := none, pendingNativeEvents := none }

/-- A sample native event targeting the body of edBase. -/
def evDemo : Event := ⟨[0, 1]⟩

/-- Witness for C4: a hidden editor receives no dispatch, a read-only
editor is redirected to the suppression hook, and a listening editor is
fired normally. -/
theorem fireEvent_gating_witness :
    DispatchAction.fired 1 "click" evDemo ∉
      fireEvent { edBase with hidden := true } "click" evDemo ∧
    fireEvent { edBase with readOnly := true } "click" evDemo =
      [DispatchAction.preventReadOnly 1 evDemo] ∧
    fireEvent edBase "click" evDemo =
      [DispatchAction.fired 1 "click" evDemo] :=
  ⟨fun hmem =>
    (fireEvent_gating { edBase with hidden := true } "click" evDemo).1
      (Or.inl rfl) _ hmem 1 "click" evDemo rfl,
   (fireEvent_gating { edBase with readOnly := true } "click" evDemo).2.1 rfl,
   (fireEvent_gating edBase "click" evDemo).2.2 rfl rfl⟩

/-- Claim C3: getEventTarget returns the document for selectionchange, the
document element for mouse-like events outside inline mode, the configured
event root when one is set (resolved through DOM.select on first use and
cached on the editor, the cache reused afterwards), and the editable body
otherwise. -/
theorem getEventTarget_cases (sf : String → Node) (ed : Editor)
    (n : String) :
    (n = "selectionchange" → getEventTarget sf ed n = (ed.doc, ed)) ∧
    (n ≠ "selectionchange" → ed.inline = false → isMouseLike n = true →
        getEventTarget sf ed n = (ed.docElement, ed)) ∧
    (n ≠ "selectionchange" → (ed.inline = true ∨ isMouseLike n = false) →
        ∀ sel, ed.settingsEventRoot = some sel →
          (ed.eventRootCache = none →
              getEventTarget sf ed n =
                (sf sel, { ed with eventRootCache := some (sf sel) })) ∧
          (∀ r, ed.eventRootCache = some r →
              getEventTarget sf ed n = (r, ed))) ∧
    (n ≠ "selectionchange" → (ed.inline = true ∨ isMouseLike n = false) →
        ed.settingsEventRoot = none →
        getEventTarget sf ed n = (ed.body, ed)) := by
  refine ⟨?_, ?_, ?_, ?_⟩
  · intro h
    simp [getEventTarget, h]
  · intro h hi hm
    simp [getEventTarget, h, hi, hm]
  · intro h hd sel hs
    constructor
    · intro hc
      rcases hd with hd | hd <;> simp [getEventTarget, h, hd, hs, hc]
    · intro r hc
      rcases hd with hd | hd <;> simp [getEventTarget, h, hd, hs, hc]
  · intro h hd hs
    rcases hd with hd | hd <;> simp [getEventTarget, h, hd, hs]

/-- Witness for C3: all four cases of getEventTarget evaluated on concrete
editors and event names. -/
theorem getEventTarget_cases_witness :
    getEventTarget sfDemo edBase "selectionchange" = (edBase.doc, edBase) ∧
    getEventTarget sfDemo edBase "click" = (edBase.docElement, edBase) ∧
    getEventTarget sfDemo
        { edBase with settingsEventRoot := some "#r" } "keydown" =
      (sfDemo "#r",
        { edBase with settingsEventRoot := some "#r",
                      eventRootCache := some (sfDemo "#r") }) ∧
    getEventTarget sfDemo
        { edBase with settingsEventRoot := some "#r",
                      eventRootCache := some [4] } "keydown" =
      ([4], { edBase with settingsEventRoot := some "#r",
                          eventRootCache := some [4] }) ∧
    getEventTarget sfDemo edBase "keydown" = (edBase.body, edBase) :=
  ⟨(getEventTarget_cases sfDemo edBase "selectionchange").1 rfl,
   (getEventTarget_cases sfDemo edBase "click").2.1 (by decide) rfl
     (by decide),
   ((getEventTarget_cases sfDemo
      { edBase with settingsEventRoot := some "#r" } "keydown").2.2.1
      (by decide) (Or.inr (by decide)) "#r" rfl).1 rfl,
   ((getEventTarget_cases sfDemo
      { edBase with settingsEventRoot := some "#r",
                    eventRootCache := some [4] } "keydown").2.2.1
      (by decide) (Or.inr (by decide)) "#r" rfl).2 [4] rfl,
   (getEventTarget_cases sfDemo edBase "keydown").2.2.2 (by decide)
     (Or.inr (by decide)) rfl⟩

/-- An editor found in the manager under an id carries that id. -/
theorem findEditor_id {w : World} {i : Nat} {ed : Editor}
    (h : findEditor w i = some ed) : ed.id = i := by
  have := List.find?_some h
  simpa using this

/-- Replacing the editor found under an id makes the replacement the
editor found under that id, provided the replacement keeps the id. -/
theorem find_replaceFirst (l : List Editor) (ed ed2 : Editor) (i : Nat)
    (h : l.find? (fun e => e.id == i) = some ed) (hid : ed2.id = ed.id) :
    (replaceFirst l ed2).find? (fun e => e.id == i) = some ed2 := by
  induction l with
  | nil => simp at h
  | cons e es ih =>
      by_cases he : e.id = i
      · rw [List.find?_cons_of_pos _ (by simpa using he)] at h
        have hee : e = ed := by simpa using h
        have h1 : (e.id == ed2.id) = true := by simp [hee, hid]
        have h2 : (ed2.id == i) = true := by simp [hid, ← hee, he]
        simp only [replaceFirst]
        rw [if_pos h1]
        exact List.find?_cons_of_pos _ h2
      · rw [List.find?_cons_of_neg _ (by simpa using he)] at h
        have hedi : ed.id = i := by simpa using List.find?_some h
        have h1 : ¬((e.id == ed2.id) = true) := by
          simp [hid, hedi]
          exact he
        simp only [replaceFirst]
        rw [if_neg h1]
        rw [List.find?_cons_of_neg _ (by simpa using he)]
        exact ih h

/-- findEditor after updateEditor, stated on worlds. -/
theorem findEditor_updateEditor {w : World} {i : Nat} {ed ed2 : Editor}
    (h : findEditor w i = some ed) (hid : ed2.id = ed.id) :
    findEditor (updateEditor w ed2) i = some ed2 :=
  find_replaceFirst w.editors ed ed2 i h hid

/-- Claim C9: unbindAllNativeEvents on an editor with no delegates map
leaves the editor unchanged (in particular its delegate state) and
completes without failure, being a total function of the world. -/
theorem unbindAll_no_delegates (w : World) (i : Nat) (ed : Editor)
    (h1 : findEditor w i = some ed) (h2 : ed.delegates = none) :
    findEditor (unbindAllNativeEvents w i) i = some ed := by
  unfold unbindAllNativeEvents
  rw [h1]
  simp only [h2]
  exact findEditor_updateEditor (w := { w with nativeListeners := _ }) h1 rfl

/-- Witness for C9: unbindAllNativeEvents on a fresh editor with no
delegates map leaves the editor as it was. -/
theorem unbindAll_no_delegates_witness :
    findEditor
        (unbindAllNativeEvents ⟨[edBase], none, [], false, sfDemo⟩ 1) 1 =
      some edBase :=
  unbindAll_no_delegates ⟨[edBase], none, [], false, sfDemo⟩ 1 edBase rfl rfl

/-- A fired action is produced by fireEvent exactly for the editor itself
while it is listening. -/
theorem fired_mem_fireEvent (ed : Editor) (n : String) (e : Event)
    (i : Nat) :
    (DispatchAction.fired i n e ∈ fireEvent ed n e) ↔
      (ed.id = i ∧ isListening ed = true) := by
  by_cases hl : isListening ed = true
  · simp [fireEvent, hl]
    exact eq_comm
  · have hl' : isListening ed = false := by simpa using hl
    cases hr : ed.readOnly <;> simp [fireEvent, hl', hr]

/-- A fired action is produced by the delegate loop exactly for the
editors of the walked list whose body is the target or an ancestor of it
and that are listening. -/
theorem fired_mem_walkEditors (eds : List Editor) (n : String) (e : Event)
    (i : Nat) :
    (DispatchAction.fired i n e ∈ walkEditors eds n e) ↔
      ∃ ed, ed ∈ eds ∧ ed.id = i ∧
        (ed.body == e.target || isChildOf e.target ed.body) = true ∧
        isListening ed = true := by
  induction eds with
  | nil => simp [walkEditors]
  | cons ed rest ih =>
      simp only [walkEditors, List.mem_append, ih, List.mem_cons]
      by_cases hb : (ed.body == e.target || isChildOf e.target ed.body)
        = true
      · rw [if_pos hb]
        rw [fired_mem_fireEvent]
        constructor
        · rintro (⟨h1, h2⟩ | ⟨ed', hm, h1, h2, h3⟩)
          · exact ⟨ed, Or.inl rfl, h1, hb, h2⟩
          · exact ⟨ed', Or.inr hm, h1, h2, h3⟩
        · rintro ⟨ed', hm | hm, h1, h2, h3⟩
          · subst hm
            exact Or.inl ⟨h1, h3⟩
          · exact Or.inr ⟨ed', hm, h1, h2, h3⟩
      · rw [if_neg hb]
        simp only [List.not_mem_nil, false_or]
        constructor
        · rintro ⟨ed', hm, h1, h2, h3⟩
          exact ⟨ed', Or.inr hm, h1, h2, h3⟩
        · rintro ⟨ed', hm | hm, h1, h2, h3⟩
          · subst hm
            exact absurd h2 hb
          · exact ⟨ed', hm, h1, h2, h3⟩

/-- Claim C1: running the shared custom-event-root delegate dispatches the
event to exactly those live editors of the manager whose editable body is
the event target or an ancestor of it — and, per the gating of fireEvent,
are neither hidden nor read-only — and to no other editor; the delegate
scans the whole live editor list. -/
theorem sharedDelegate_dispatch_iff (w : World) (n : String) (e : Event)
    (i : Nat) :
    (DispatchAction.fired i n e ∈ runSharedDelegate w n e) ↔
      ∃ ed, ed ∈ w.editors ∧ ed.id = i ∧
        (ed.body == e.target || isChildOf e.target ed.body) = true ∧
        isListening ed = true := by
  unfold runSharedDelegate
  rw [fired_mem_walkEditors]
  simp [List.mem_reverse]

/-- getEventTarget either leaves the editor untouched or only fills the
event-root cache with the returned node. -/
theorem getEventTarget_snd (sf : String → Node) (ed : Editor)
    (n : String) :
    (getEventTarget sf ed n).2 = ed ∨
    (getEventTarget sf ed n).2 =
      { ed with eventRootCache := some ((getEventTarget sf ed n).1) } := by
  unfold getEventTarget
  by_cases h1 : n = "selectionchange"
  · simp [h1]
  · by_cases h2 : (!ed.inline && isMouseLike n) = true
    · simp [h1, h2]
    · have h2' : (!ed.inline && isMouseLike n) = false := by simpa using h2
      cases hr : ed.settingsEventRoot with
      | none => simp [h1, h2', hr]
      | some sel =>
          cases hc : ed.eventRootCache with
          | none => simp [h1, h2', hr, hc]
          | some r => simp [h1, h2', hr, hc]

/-- The editor fields that bindEventDelegate branches on are preserved by
getEventTarget. -/
theorem getEventTarget_snd_fields (sf : String → Node) (ed : Editor)
    (n : String) :
    (getEventTarget sf ed n).2.id = ed.id ∧
    (getEventTarget sf ed n).2.delegates = ed.delegates ∧
    (getEventTarget sf ed n).2.removed = ed.removed ∧
    (getEventTarget sf ed n).2.settingsEventRoot = ed.settingsEventRoot ∧
    (getEventTarget sf ed n).2.inline = ed.inline := by
  rcases getEventTarget_snd sf ed n with h | h <;> rw [h] <;>
    exact ⟨rfl, rfl, rfl, rfl, rfl⟩

/-- Resolving the event target twice in a row returns the same node and
the same editor: the cache write is idempotent. -/
theorem getEventTarget_idem (sf : String → Node) (ed : Editor)
    (n : String) :
    getEventTarget sf (getEventTarget sf ed n).2 n =
      getEventTarget sf ed n := by
  by_cases h1 : n = "selectionchange"
  · simp [getEventTarget, h1]
  · by_cases h2 : (!ed.inline && isMouseLike n) = true
    · simp [getEventTarget, h1, h2]
    · have h2' : (!ed.inline && isMouseLike n) = false := by simpa using h2
      cases hr : ed.settingsEventRoot with
      | none => simp [getEventTarget, h1, h2', hr]
      | some sel =>
          cases hc : ed.eventRootCache with
          | none => simp [getEventTarget, h1, h2', hr, hc]
          | some r => simp [getEventTarget, h1, h2', hr, hc]

/-- The delegates-map initialization keeps the editor id. -/
theorem edInit_id (ed0 : Editor) : (edInit ed0).id = ed0.id := by
  cases hd : ed0.delegates <;> simp [edInit, hd]

/-- The delegates-map initialization keeps the removed flag. -/
theorem edInit_removed (ed0 : Editor) :
    (edInit ed0).removed = ed0.removed := by
  cases hd : ed0.delegates <;> simp [edInit, hd]

/-- The delegates-map initialization keeps the configured event root. -/
theorem edInit_root (ed0 : Editor) :
    (edInit ed0).settingsEventRoot = ed0.settingsEventRoot := by
  cases hd : ed0.delegates <;> simp [edInit, hd]

/-- After initialization the delegates map is present and carries the same
event names. -/
theorem edInit_delegates (ed0 : Editor) :
    (edInit ed0).delegates = some (delegateNames ed0) := by
  cases hd : ed0.delegates <;> simp [edInit, delegateNames, hd]

/-- The delegates-map initialization keeps the delegate event names. -/
theorem edInit_delegateNames (ed0 : Editor) :
    delegateNames (edInit ed0) = delegateNames ed0 := by
  cases hd : ed0.delegates <;> simp [edInit, delegateNames, hd]

/-- Initializing an already-present delegates map changes nothing. -/
theorem edInit_again (ed : Editor) (h : ed.delegates.isNone = false) :
    edInit ed = ed := by
  simp [edInit, h]

/-- A list extended with an element contains it. -/
theorem contains_append_self (l : List String) (a : String) :
    (l ++ [a]).contains a = true := by
  simp [List.contains]

/-- bindEventDelegate on an unknown editor id does nothing. -/
theorem bind_not_found (w : World) (i : Nat) (n : String)
    (h : findEditor w i = none) : bindEventDelegate w i n = w := by
  simp [bindEventDelegate, h]

/-- bindEventDelegate returns early, after at most initializing the
delegates map, when a delegate for the event name already exists or the
editor was removed. -/
theorem bind_early (w : World) (i : Nat) (n : String) (ed0 : Editor)
    (h1 : findEditor w i = some ed0)
    (h2 : ((delegateNames ed0).contains n || ed0.removed) = true) :
    bindEventDelegate w i n = updateEditor w (edInit ed0) := by
  simp only [bindEventDelegate, h1]
  rw [if_pos (by rw [edInit_delegateNames, edInit_removed]; exact h2)]

/-- A fresh bind on an editor without a configured event root installs the
private delegate and records it in the delegates map. -/
theorem bind_fresh_private (w : World) (i : Nat) (n : String)
    (ed0 : Editor) (h1 : findEditor w i = some ed0)
    (hc : ((delegateNames ed0).contains n || ed0.removed) = false)
    (hroot : ed0.settingsEventRoot = none) :
    bindEventDelegate w i n =
      { updateEditor w
          { (getEventTarget w.selectFirst (edInit ed0) n).2 with
              delegates := some
                (delegateNames
                  (getEventTarget w.selectFirst (edInit ed0) n).2 ++ [n]) }
        with
        nativeListeners := w.nativeListeners ++
          [⟨(getEventTarget w.selectFirst (edInit ed0) n).1, n,
            Delegate.privateEd
              (getEventTarget w.selectFirst (edInit ed0) n).2.id n⟩] } := by
  simp only [bindEventDelegate, h1]
  rw [if_neg (by rw [edInit_delegateNames, edInit_removed, hc]; simp)]
  simp only [edInit_root, hroot]
  rfl

/-- A fresh bind with a configured event root and no registry yet creates
the registry, installs the cleanup handler and the shared listener. -/
theorem bind_fresh_root_none (w : World) (i : Nat) (n : String)
    (ed0 : Editor) (sel : String) (h1 : findEditor w i = some ed0)
    (hc : ((delegateNames ed0).contains n || ed0.removed) = false)
    (hroot : ed0.settingsEventRoot = some sel)
    (hcrd : w.customEventRootDelegates = none) :
    bindEventDelegate w i n =
      { updateEditor w (getEventTarget w.selectFirst (edInit ed0) n).2 with
          customEventRootDelegates := some [n],
          removeHandlerInstalled := true,
          nativeListeners := w.nativeListeners ++
            [⟨(getEventTarget w.selectFirst (edInit ed0) n).1, n,
              Delegate.sharedRoot n⟩] } := by
  simp only [bindEventDelegate, h1]
  rw [if_neg (by rw [edInit_delegateNames, edInit_removed, hc]; simp)]
  simp only [edInit_root, hroot]
  simp [updateEditor, hcrd]

/-- A fresh bind with a configured event root whose shared delegate for
the event name already exists only writes back the editor. -/
theorem bind_fresh_root_some_in (w : World) (i : Nat) (n : String)
    (ed0 : Editor) (sel : String) (crd : List String)
    (h1 : findEditor w i = some ed0)
    (hc : ((delegateNames ed0).contains n || ed0.removed) = false)
    (hroot : ed0.settingsEventRoot = some sel)
    (hcrd : w.customEventRootDelegates = some crd)
    (hin : crd.contains n = true) :
    bindEventDelegate w i n =
      updateEditor w (getEventTarget w.selectFirst (edInit ed0) n).2 := by
  simp only [bindEventDelegate, h1]
  rw [if_neg (by rw [edInit_delegateNames, edInit_removed, hc]; simp)]
  simp only [edInit_root, hroot]
  have hin2 : n ∈ crd := by simpa using hin
  simp [updateEditor, hcrd, hin2]

/-- A fresh bind with a configured event root and no shared delegate yet
for the event name registers it and installs the shared listener. -/
theorem bind_fresh_root_some_notin (w : World) (i : Nat) (n : String)
    (ed0 : Editor) (sel : String) (crd : List String)
    (h1 : findEditor w i = some ed0)
    (hc : ((delegateNames ed0).contains n || ed0.removed) = false)
    (hroot : ed0.settingsEventRoot = some sel)
    (hcrd : w.customEventRootDelegates = some crd)
    (hin : crd.contains n = false) :
    bindEventDelegate w i n =
      { updateEditor w (getEventTarget w.selectFirst (edInit ed0) n).2 with
          customEventRootDelegates := some (crd ++ [n]),
          nativeListeners := w.nativeListeners ++
            [⟨(getEventTarget w.selectFirst (edInit ed0) n).1, n,
              Delegate.sharedRoot n⟩] } := by
  simp only [bindEventDelegate, h1]
  rw [if_neg (by rw [edInit_delegateNames, edInit_removed, hc]; simp)]
  simp only [edInit_root, hroot]
  have hin2 : n ∉ crd := by simpa using hin
  simp [updateEditor, hcrd, hin2]

/-- The fields of the editor returned by getEventTarget after the
delegates-map initialization, in terms of the original editor. -/
theorem pSnd_facts (w : World) (n : String) (ed0 : Editor) :
    (getEventTarget w.selectFirst (edInit ed0) n).2.id = ed0.id ∧
    (getEventTarget w.selectFirst (edInit ed0) n).2.delegates =
      some (delegateNames ed0) ∧
    (getEventTarget w.selectFirst (edInit ed0) n).2.removed = ed0.removed ∧
    (getEventTarget w.selectFirst (edInit ed0) n).2.settingsEventRoot =
      ed0.settingsEventRoot ∧
    delegateNames (getEventTarget w.selectFirst (edInit ed0) n).2 =
      delegateNames ed0 := by
  have h := getEventTarget_snd_fields w.selectFirst (edInit ed0) n
  refine ⟨?_, ?_, ?_, ?_, ?_⟩
  · rw [h.1, edInit_id]
  · rw [h.2.1, edInit_delegates]
  · rw [h.2.2.1, edInit_removed]
  · rw [h.2.2.2.1, edInit_root]
  · unfold delegateNames
    rw [h.2.1, edInit_delegates]
    rfl

/-- Binding the same event name a second time never changes the installed
native listeners, whatever the state. -/
theorem bind_bind_listeners (w : World) (i : Nat) (n : String) :
    (bindEventDelegate (bindEventDelegate w i n) i n).nativeListeners =
      (bindEventDelegate w i n).nativeListeners := by
  cases hf : findEditor w i with
  | none => rw [bind_not_found w i n hf, bind_not_found w i n hf]
  | some ed0 =>
      have pf := pSnd_facts w n ed0
      by_cases hc : ((delegateNames ed0).contains n || ed0.removed) = true
      · rw [bind_early w i n ed0 hf hc]
        have hf2 : findEditor (updateEditor w (edInit ed0)) i =
            some (edInit ed0) := findEditor_updateEditor hf (edInit_id ed0)
        have hc2 : ((delegateNames (edInit ed0)).contains n ||
            (edInit ed0).removed) = true := by
          rw [edInit_delegateNames, edInit_removed]
          exact hc
        rw [bind_early _ i n (edInit ed0) hf2 hc2]
        rfl
      · have hc' : ((delegateNames ed0).contains n || ed0.removed)
            = false := by simpa using hc
        have hcP : ((delegateNames
            (getEventTarget w.selectFirst (edInit ed0) n).2).contains n ||
            (getEventTarget w.selectFirst (edInit ed0) n).2.removed)
            = false := by
          rw [pf.2.2.2.2, pf.2.2.1]
          exact hc'
        cases hroot : ed0.settingsEventRoot with
        | none =>
            rw [bind_fresh_private w i n ed0 hf hc' hroot]
            have hf2 : findEditor
                { updateEditor w
                    { (getEventTarget w.selectFirst (edInit ed0) n).2 with
                        delegates := some
                          (delegateNames
                            (getEventTarget w.selectFirst (edInit ed0) n).2
                            ++ [n]) } with
                  nativeListeners := w.nativeListeners ++
                    [⟨(getEventTarget w.selectFirst (edInit ed0) n).1, n,
                      Delegate.privateEd
                        (getEventTarget w.selectFirst
                          (edInit ed0) n).2.id n⟩] } i =
                some { (getEventTarget w.selectFirst (edInit ed0) n).2 with
                        delegates := some
                          (delegateNames
                            (getEventTarget w.selectFirst (edInit ed0) n).2
                            ++ [n]) } :=
              findEditor_updateEditor hf pf.1
            rw [bind_early _ i n _ hf2 (by simp [delegateNames])]
            rfl
        | some sel =>
            have hrootP : (getEventTarget w.selectFirst
                (edInit ed0) n).2.settingsEventRoot = some sel := by
              rw [pf.2.2.2.1]
              exact hroot
            cases hcrd : w.customEventRootDelegates with
            | none =>
                rw [bind_fresh_root_none w i n ed0 sel hf hc' hroot hcrd]
                have hf2 : findEditor
                    { updateEditor w
                        (getEventTarget w.selectFirst (edInit ed0) n).2 with
                      customEventRootDelegates := some [n],
                      removeHandlerInstalled := true,
                      nativeListeners := w.nativeListeners ++
                        [⟨(getEventTarget w.selectFirst (edInit ed0) n).1,
                          n, Delegate.sharedRoot n⟩] } i =
                    some (getEventTarget w.selectFirst (edInit ed0) n).2 :=
                  findEditor_updateEditor hf pf.1
                rw [bind_fresh_root_some_in _ i n _ sel [n] hf2 hcP hrootP
                  rfl (by simp)]
                rfl
            | some crd =>
                by_cases hin : crd.contains n = true
                · rw [bind_fresh_root_some_in w i n ed0 sel crd hf hc'
                    hroot hcrd hin]
                  have hf2 : findEditor
                      (updateEditor w
                        (getEventTarget w.selectFirst (edInit ed0) n).2) i =
                      some (getEventTarget w.selectFirst (edInit ed0) n).2 :=
                    findEditor_updateEditor hf pf.1
                  rw [bind_fresh_root_some_in _ i n _ sel crd hf2 hcP hrootP
                    hcrd hin]
                  rfl
                · have hin' : crd.contains n = false := by simpa using hin
                  rw [bind_fresh_root_some_notin w i n ed0 sel crd hf hc'
                    hroot hcrd hin']
                  have hf2 : findEditor
                      { updateEditor w
                          (getEventTarget w.selectFirst (edInit ed0) n).2
                        with
                        customEventRootDelegates := some (crd ++ [n]),
                        nativeListeners := w.nativeListeners ++
                          [⟨(getEventTarget w.selectFirst (edInit ed0) n).1,
                            n, Delegate.sharedRoot n⟩] } i =
                      some (getEventTarget w.selectFirst (edInit ed0) n).2 :=
                    findEditor_updateEditor hf pf.1
                  rw [bind_fresh_root_some_in _ i n _ sel (crd ++ [n]) hf2
                    hcP hrootP rfl (contains_append_self crd n)]
                  rfl

/-- One call of bindEventDelegate installs at most one native listener. -/
theorem bind_listeners_length (w : World) (i : Nat) (n : String) :
    (bindEventDelegate w i n).nativeListeners.length ≤
      w.nativeListeners.length + 1 := by
  cases hf : findEditor w i with
  | none =>
      rw [bind_not_found w i n hf]
      exact Nat.le_succ _
  | some ed0 =>
      by_cases hc : ((delegateNames ed0).contains n || ed0.removed) = true
      · rw [bind_early w i n ed0 hf hc]
        exact Nat.le_succ _
      · have hc' : ((delegateNames ed0).contains n || ed0.removed)
            = false := by simpa using hc
        cases hroot : ed0.settingsEventRoot with
        | none =>
            rw [bind_fresh_private w i n ed0 hf hc' hroot]
            simp
        | some sel =>
            cases hcrd : w.customEventRootDelegates with
            | none =>
                rw [bind_fresh_root_none w i n ed0 sel hf hc' hroot hcrd]
                simp
            | some crd =>
                by_cases hin : crd.contains n = true
                · rw [bind_fresh_root_some_in w i n ed0 sel crd hf hc'
                    hroot hcrd hin]
                  exact Nat.le_succ _
                · rw [bind_fresh_root_some_notin w i n ed0 sel crd hf hc'
                    hroot hcrd (by simpa using hin)]
                  simp

/-- Claim C2: bindEventDelegate is idempotent and binding the same event
name twice on the same editor installs exactly one native listener.
Binding a second time leaves the installed native listeners exactly those
of the first call; one call installs at most one listener; when a delegate
for the (editor, eventName) pair already exists or the editor has been
removed, the call leaves the native listeners and the shared custom-root
registry untouched; and a fresh bind (no delegate yet for the pair, the
editor not removed, no shared delegate yet for the name) installs exactly
one native listener for the event name, which both the first and the
second call leave as the only addition. -/
theorem bindEventDelegate_idempotent (w : World) (i : Nat) (n : String) :
    (bindEventDelegate (bindEventDelegate w i n) i n).nativeListeners =
      (bindEventDelegate w i n).nativeListeners ∧
    (bindEventDelegate w i n).nativeListeners.length ≤
      w.nativeListeners.length + 1 ∧
    (∀ ed0, findEditor w i = some ed0 →
      ((delegateNames ed0).contains n || ed0.removed) = true →
      bindEventDelegate w i n = updateEditor w (edInit ed0) ∧
      (bindEventDelegate w i n).nativeListeners = w.nativeListeners ∧
      (bindEventDelegate w i n).customEventRootDelegates =
        w.customEventRootDelegates) ∧
    (∀ ed0, findEditor w i = some ed0 →
      ((delegateNames ed0).contains n || ed0.removed) = false →
      (w.customEventRootDelegates.getD []).contains n = false →
      ∃ l : Listener, l.eventName = n ∧
        (bindEventDelegate w i n).nativeListeners =
          w.nativeListeners ++ [l] ∧
        (bindEventDelegate (bindEventDelegate w i n) i n).nativeListeners =
          w.nativeListeners ++ [l]) := by
  refine ⟨bind_bind_listeners w i n, bind_listeners_length w i n, ?_, ?_⟩
  · intro ed0 h1 h2
    refine ⟨bind_early w i n ed0 h1 h2, ?_, ?_⟩ <;>
      rw [bind_early w i n ed0 h1 h2] <;> rfl
  · intro ed0 h1 hfresh hreg
    have hbb := bind_bind_listeners w i n
    cases hroot : ed0.settingsEventRoot with
    | none =>
        refine ⟨⟨(getEventTarget w.selectFirst (edInit ed0) n).1, n,
          Delegate.privateEd
            (getEventTarget w.selectFirst (edInit ed0) n).2.id n⟩,
          rfl, ?_, ?_⟩
        · rw [bind_fresh_private w i n ed0 h1 hfresh hroot]
        · rw [hbb, bind_fresh_private w i n ed0 h1 hfresh hroot]
    | some sel =>
        cases hcrd : w.customEventRootDelegates with
        | none =>
            refine ⟨⟨(getEventTarget w.selectFirst (edInit ed0) n).1, n,
              Delegate.sharedRoot n⟩, rfl, ?_, ?_⟩
            · rw [bind_fresh_root_none w i n ed0 sel h1 hfresh hroot hcrd]
            · rw [hbb,
                bind_fresh_root_none w i n ed0 sel h1 hfresh hroot hcrd]
        | some crd =>
            have hin : crd.contains n = false := by
              rw [hcrd] at hreg
              exact hreg
            refine ⟨⟨(getEventTarget w.selectFirst (edInit ed0) n).1, n,
              Delegate.sharedRoot n⟩, rfl, ?_, ?_⟩
            · rw [bind_fresh_root_some_notin w i n ed0 sel crd h1 hfresh
                hroot hcrd hin]
            · rw [hbb, bind_fresh_root_some_notin w i n ed0 sel crd h1
                hfresh hroot hcrd hin]

/-- A sample world whose editor already has a delegate for keydown. -/
def wDemo : World :=
  ⟨[{ edBase with delegates := some ["keydown"] }], none, [], false, sfDemo⟩

/-- A sample world whose editor has no delegate for keydown yet. -/
def wFresh : World := ⟨[edBase], none, [], false, sfDemo⟩

/-- Witness for C2: re-binding an already-delegated event name changes
neither the native listeners nor the shared registry, and a fresh bind
followed by a re-bind installs exactly one native listener. -/
theorem bindEventDelegate_idempotent_witness :
    (bindEventDelegate wDemo 1 "keydown" =
      updateEditor wDemo
        (edInit { edBase with delegates := some ["keydown"] }) ∧
    (bindEventDelegate wDemo 1 "keydown").nativeListeners =
      wDemo.nativeListeners ∧
    (bindEventDelegate wDemo 1 "keydown").customEventRootDelegates =
      wDemo.customEventRootDelegates) ∧
    (∃ l : Listener, l.eventName = "keydown" ∧
      (bindEventDelegate wFresh 1 "keydown").nativeListeners =
        wFresh.nativeListeners ++ [l] ∧
      (bindEventDelegate
          (bindEventDelegate wFresh 1 "keydown") 1 "keydown").nativeListeners
        = wFresh.nativeListeners ++ [l]) :=
  ⟨(bindEventDelegate_idempotent wDemo 1 "keydown").2.2.1
    { edBase with delegates := some ["keydown"] } rfl (by decide),
   (bindEventDelegate_idempotent wFresh 1 "keydown").2.2.2
    edBase rfl (by decide) (by decide)⟩

/-- Without a configured event root, getEventTarget never mutates the
editor. -/
theorem getEventTarget_snd_no_root (sf : String → Node) (ed : Editor)
    (n : String) (h : ed.settingsEventRoot = none) :
    (getEventTarget sf ed n).2 = ed := by
  unfold getEventTarget
  by_cases h1 : n = "selectionchange"
  · simp [h1]
  · by_cases h2 : (!ed.inline && isMouseLike n) = true
    · simp [h1, h2]
    · have h2' : (!ed.inline && isMouseLike n) = false := by simpa using h2
      simp [h1, h2', h]

/-- Surviving a removeAllOn filter implies membership in the input. -/
theorem mem_removeAllOn {ls : List Listener} {t : Node} {l : Listener}
    (h : l ∈ removeAllOn ls t) : l ∈ ls :=
  (List.mem_filter.mp h).1

/-- Surviving the optional window/document unbind implies membership in
the input. -/
theorem mem_if_removeAll {c : Bool} {ls : List Listener} {t1 t2 : Node}
    {l : Listener}
    (h : l ∈ (if c then removeAllOn (removeAllOn ls t1) t2 else ls)) :
    l ∈ ls := by
  cases c
  · simpa using h
  · simp only [if_pos] at h
    exact mem_removeAllOn (mem_removeAllOn h)

/-- The delegate-unbinding loop of unbindAllNativeEvents on an editor
without a configured event root: the editor is unchanged and every
surviving listener was present before and matches no unbound delegate. -/
theorem unbindLoop_no_root (sf : String → Node) (names : List String)
    (ed : Editor) (ls : List Listener) (h : ed.settingsEventRoot = none) :
    (unbindLoop sf names ed ls).1 = ed ∧
    ∀ l ∈ (unbindLoop sf names ed ls).2,
      l ∈ ls ∧ ∀ n ∈ names,
        ¬(l.target = (getEventTarget sf ed n).1 ∧ l.eventName = n ∧
          l.delegate = Delegate.privateEd ed.id n) := by
  induction names generalizing ls with
  | nil =>
      exact ⟨rfl, fun l hl =>
        ⟨hl, fun n hn => absurd hn (List.not_mem_nil n)⟩⟩
  | cons n0 rest ih =>
      have hsnd : (getEventTarget sf ed n0).2 = ed :=
        getEventTarget_snd_no_root sf ed n0 h
      have hstep : unbindLoop sf (n0 :: rest) ed ls =
          unbindLoop sf rest ed
            (removeListeners ls (getEventTarget sf ed n0).1 n0
              (Delegate.privateEd ed.id n0)) := by
        simp only [unbindLoop, hsnd]
      rw [hstep]
      obtain ⟨hfst, hmem⟩ := ih
        (removeListeners ls (getEventTarget sf ed n0).1 n0
          (Delegate.privateEd ed.id n0))
      refine ⟨hfst, ?_⟩
      intro l hl
      obtain ⟨hl1, hl2⟩ := hmem l hl
      obtain ⟨hl0, hpred⟩ := List.mem_filter.mp hl1
      refine ⟨hl0, ?_⟩
      intro n hn
      rcases List.mem_cons.mp hn with hn0 | hnr
      · subst hn0
        intro hmatch
        rcases hmatch with ⟨ht, hen, hdel⟩
        simp [ht, hen, hdel] at hpred
      · exact hl2 n hnr

/-- Claim C5 (amended form): after unbindAllNativeEvents on an editor
whose listeners were installed by its own private delegates (the editor
has no configured event root and every private listener for it is
recorded in its delegates map at its resolved target), no native listener
delegating privately to that editor remains installed; shared
custom-event-root listeners are outside the delegates map and are not
touched, see the counterexample for the unamended claim. -/
theorem unbindAll_removes_private (w : World) (i : Nat) (ed : Editor)
    (h1 : findEditor w i = some ed)
    (h2 : ed.settingsEventRoot = none)
    (h3 : ∀ l ∈ w.nativeListeners, ∀ n : String,
        l.delegate = Delegate.privateEd i n →
        n ∈ delegateNames ed ∧
        l.target = (getEventTarget w.selectFirst ed n).1 ∧
        l.eventName = n) :
    ∀ l ∈ (unbindAllNativeEvents w i).nativeListeners, ∀ n : String,
      l.delegate ≠ Delegate.privateEd i n := by
  have hid : ed.id = i := findEditor_id h1
  intro l hl n hd
  cases hdel : ed.delegates with
  | none =>
      have hl' : l ∈ w.nativeListeners := by
        simp only [unbindAllNativeEvents, h1, hdel, updateEditor] at hl
        exact mem_if_removeAll
          (mem_removeAllOn (mem_removeAllOn hl))
      have hn := (h3 l hl' n hd).1
      rw [delegateNames, hdel] at hn
      simp at hn
  | some names =>
      obtain ⟨hfst, hmem⟩ :=
        unbindLoop_no_root w.selectFirst names ed w.nativeListeners h2
      have hl' : l ∈ (unbindLoop w.selectFirst names ed
          w.nativeListeners).2 := by
        simp only [unbindAllNativeEvents, h1, hdel, updateEditor] at hl
        exact mem_if_removeAll
          (mem_removeAllOn (mem_removeAllOn hl))
      obtain ⟨hl0, hno⟩ := hmem l hl'
      obtain ⟨hnn, ht, hen⟩ := h3 l hl0 n hd
      rw [delegateNames, hdel] at hnn
      exact hno n hnn ⟨ht, hen, by rw [hd, hid]⟩

/-- A sample editor with one privately delegated event name. -/
def edP : Editor := { edBase with delegates := some ["click"] }

/-- A world carrying edP and its installed private click listener. -/
def wPriv : World :=
  ⟨[edP], none, [⟨[0, 0], "click", Delegate.privateEd 1 "click"⟩], false,
    sfDemo⟩

/-- Witness for the amended C5: after unbindAllNativeEvents the private
click listener of the editor is gone. -/
theorem unbindAll_removes_private_witness :
    Listener.mk [0, 0] "click" (Delegate.privateEd 1 "click") ∉
      (unbindAllNativeEvents wPriv 1).nativeListeners :=
  fun hmem =>
    unbindAll_removes_private wPriv 1 edP rfl rfl
      (by
        intro l hl n hd
        have hl2 : l =
            ⟨[0, 0], "click", Delegate.privateEd 1 "click"⟩ := by
          simpa [wPriv] using hl
        subst hl2
        have hn : "click" = n := by
          injection hd
        subst hn
        exact ⟨by decide, by decide, rfl⟩)
      _ hmem "click" rfl

/-- A sample inline editor configured with a custom event root. -/
def edC : Editor :=
  { id := 0, hidden := false, readOnly := false, removed := false,
    inline := true, initialized := true, body := [0, 1], doc := [9],
    docElement := [9, 0], win := [8], container := [7],
    settingsEventRoot := some "#root", eventRootCache := none,
    delegates := none, pendingNativeEvents := none }

/-- The world of edC before any binding. -/
def w5start : World := ⟨[edC], none, [], false, sfDemo⟩

/-- The world after binding click on edC: the shared custom-root delegate
is installed on the resolved event root. -/
def w5bound : World := bindEventDelegate w5start 0 "click"

/-- The world after unbindAllNativeEvents on edC. -/
def w5after : World := unbindAllNativeEvents w5bound 0

/-- A click event targeting the body of edC. -/
def e5 : Event := ⟨[0, 1]⟩

/-- Counterexample to C5 as stated: click was previously bound on the
editor through its custom event root, unbindAllNativeEvents completed on
the editor, yet firing click on the event root still dispatches to the
editor, because the shared custom-root listener is not removed. -/
theorem unbindAll_counterexample :
    w5bound.customEventRootDelegates = some ["click"] ∧
    w5after.nativeListeners =
      [⟨[0], "click", Delegate.sharedRoot "click"⟩] ∧
    DispatchAction.fired 0 "click" e5 ∈ fireNative w5after [0] "click" e5 :=
  by decide

end TinySpec
